import Mathlib

/-!
Shallow embedding of the reply reader core of credis.c (a C client library
for Redis): the buffered line reader, the reply-type dispatcher, the bulk
and multi-bulk handlers, and the deadline-bounded transport send loop.

Machine ints are modelled as Lean Int (the C values involved never approach
the overflow range in the executions the claims quantify over); the receive
buffer backing array is modelled as a total function Int to Char, which
idealizes the fixed 4096-byte capacity as unbounded memory: an index outside
the valid region returns whatever that memory holds, exactly as a C read of
a stale or out-of-range byte would.  The transport is modelled as a list of
events (one per select/recv or select/send round), consumed in order; an
empty event list behaves as a deadline elapsing on an idle peer.
-/

namespace Credis

/-- Modelled from the spec: the error sentinels CREDIS_ERR_PROTOCOL,
CREDIS_ERR_RECV, CREDIS_ERR_SEND and CREDIS_ERR_TIMEOUT are declared in
credis.h, which is not part of src/.  Section 7 of the spec lists the error
kinds as distinct outcomes, so they are modelled as distinct negative
sentinels; no claim below depends on the particular numeric values, only on
their being nonzero and on which source return sites use which constant. -/
def CREDIS_ERR_PROTOCOL : Int := -6

/-- Modelled from the spec: see CREDIS_ERR_PROTOCOL. -/
def CREDIS_ERR_RECV : Int := -5

/-- Modelled from the spec: see CREDIS_ERR_PROTOCOL. -/
def CREDIS_ERR_SEND : Int := -3

/-- Modelled from the spec: see CREDIS_ERR_PROTOCOL. -/
def CREDIS_ERR_TIMEOUT : Int := -4

/-- C isspace on the characters that can occur here (the whitespace set of
the C locale), used by atoi. -/
def cr_isspace (c : Char) : Bool :=
  c = ' ' || c = '\t' || c = '\n' || c = '\x0b' || c = '\x0c' || c = '\r'

/-- Digit accumulator of C atoi: consume decimal digits, stop at the first
non-digit. -/
def cr_digits : List Char → Nat → Nat
  | [], acc => acc
  | c :: cs, acc =>
      if c.isDigit then cr_digits cs (acc * 10 + (c.toNat - 48)) else acc

/-- C atoi as used by credis.c on zero-terminated line views: skip leading
whitespace, optional sign, then digits; no digits parse as 0.  Overflow is
idealized away (unbounded Int). -/
def cr_atoi : List Char → Int
  | [] => 0
  | c :: cs =>
      if cr_isspace c then cr_atoi cs
      else if c = '-' then -(cr_digits cs 0 : Int)
      else if c = '+' then (cr_digits cs 0 : Int)
      else (cr_digits (c :: cs) 0 : Int)

/-- The cr_buffer struct: backing array (as total memory), cursor idx and
valid length len.  The capacity field is dropped because the backing store
is idealized as unbounded. -/
structure CrBuffer where
  data : Int → Char
  idx : Int
  len : Int

/-- The cr_multibulk struct: scratch array of recorded entries (none models
a NULL pointer recorded for a declared length of -1), allocated size and
recorded length. -/
structure CrMultibulk where
  bulks : Nat → Option (List Char)
  size : Int
  len : Int

/-- The cr_reply struct.  line and bulk are none while the C pointer is
still NULL. -/
structure CrReply where
  integer : Int
  line : Option (List Char)
  bulk : Option (List Char)
  multibulk : CrMultibulk

/-- One outcome of a select/recv round inside cr_receivedata:
a chunk of received bytes (rc = its length), the peer closing the
connection (recv returned 0), a socket error (recv returned negative), or
the select deadline elapsing. -/
inductive RecvEvent where
  | chunk : List Char → RecvEvent
  | closed : RecvEvent
  | ioerror : RecvEvent
  | timeout : RecvEvent

/-- The part of the cr_redis handle the reply reader uses: the receive
buffer, the reply slot, and the pending transport events. -/
structure RState where
  buf : CrBuffer
  reply : CrReply
  events : List RecvEvent

/-- cr_receivedata: one select/recv round.  Returns the C return code
(positive byte count, 0 for peer closed, -1 on error, -2 on timeout), the
bytes delivered, and the remaining transport events.  An empty event list
behaves as the deadline elapsing. -/
def cr_receivedata : List RecvEvent → Int × List Char × List RecvEvent
  | [] => (-2, [], [])
  | RecvEvent.chunk cs :: rest => ((cs.length : Int), cs, rest)
  | RecvEvent.closed :: rest => (0, [], rest)
  | RecvEvent.ioerror :: rest => (-1, [], rest)
  | RecvEvent.timeout :: rest => (-2, [], rest)

/-- Overwrite the prefix of the backing memory with a received chunk
(recv writes the rc received bytes at the start of the buffer; bytes beyond
keep their previous content). -/
def overwrite (old : Int → Char) (cs : List Char) : Int → Char :=
  fun i => if 0 ≤ i then cs.getD i.toNat (old i) else old i

/-- cr_findnl: while (--len) { if (*(buf++) == CR) if (*buf == LF) return
--buf; } return NULL;  The counter is the int argument len (at both call
sites it is at least 1, see cr_readln); with counter L the loop inspects
positions p .. p+L-2 for CR and, on a CR, the following byte for LF.
Returns the position of the CR of the first CRLF found. -/
def cr_findnl : (Int → Char) → Int → Nat → Option Int
  | _, _, 0 => none
  | _, _, 1 => none
  | data, p, n + 2 =>
      if data p = '\r' ∧ data (p + 1) = '\n' then some p
      else cr_findnl data (p + 1) (n + 1)

/-- The exact sequence of byte positions cr_findnl inspects, in order: each
loop round reads position p, and additionally p+1 when p held a CR; the
scan stops at the first CRLF.  This mirrors cr_findnl step for step and is
used to state what memory the scan touches. -/
def cr_findnlTrace : (Int → Char) → Int → Nat → List Int
  | _, _, 0 => []
  | _, _, 1 => []
  | data, p, n + 2 =>
      if data p = '\r' then
        if data (p + 1) = '\n' then [p, p + 1]
        else p :: (p + 1) :: cr_findnlTrace data (p + 1) (n + 1)
      else p :: cr_findnlTrace data (p + 1) (n + 1)

/-- Read count bytes of backing memory starting at position p (the value of
a returned line view). -/
def readBytes : (Int → Char) → Int → Nat → List Char
  | _, _, 0 => []
  | data, p, n + 1 => data p :: readBytes data (p + 1) n

/-- The scan-and-return half of cr_readln, reached once the buffer is known
to hold data: find the CRLF scanning from idx + start with counter
len - idx (note: the counter is not reduced by start, faithful to the
source), zero-terminate in place at the CR, return the line view
[idx, nl) and its length nl - idx, and advance idx past the delimiter. -/
def cr_scanln (st : RState) (start : Int) : Int × Option (List Char) × RState :=
  match cr_findnl st.buf.data (st.buf.idx + start) (st.buf.len - st.buf.idx).toNat with
  | none => (-1, none, st)
  | some nl =>
      (nl - st.buf.idx,
       some (readBytes st.buf.data st.buf.idx (nl - st.buf.idx).toNat),
       { st with buf := { data := fun k => if k = nl then '\x00' else st.buf.data k,
                          idx := nl + 2,
                          len := st.buf.len } })

/-- cr_readln: if the buffer is exhausted, reset idx = len = 0 and refill
wholesale via cr_receivedata (0 received means EOF and returns 0, a
negative code returns -1); then scan for the next line via cr_findnl.
Returns the C return code (line length on success, 0 on EOF, -1 on error
or when no delimiter is buffered), the line view when one was produced, and
the successor state. -/
def cr_readln (st : RState) (start : Int) : Int × Option (List Char) × RState :=
  if st.buf.len = 0 ∨ st.buf.idx ≥ st.buf.len then
    let r := cr_receivedata st.events
    if 0 < r.1 then
      cr_scanln { st with
                  buf := { data := overwrite st.buf.data r.2.1, idx := 0, len := r.1 },
                  events := r.2.2 } start
    else if r.1 = 0 then
      (0, none, { st with buf := { st.buf with idx := 0, len := 0 }, events := r.2.2 })
    else
      (-1, none, { st with buf := { st.buf with idx := 0, len := 0 }, events := r.2.2 })
  else
    cr_scanln st start

/-- The byte positions the cr_findnl call inside cr_readln inspects for the
given state and start offset (empty when cr_readln returns before
scanning).  Mirrors the fill logic of cr_readln and hands cr_findnlTrace
exactly the scan position and counter cr_readln hands cr_findnl. -/
def cr_readlnScanTrace (st : RState) (start : Int) : List Int :=
  if st.buf.len = 0 ∨ st.buf.idx ≥ st.buf.len then
    let r := cr_receivedata st.events
    if 0 < r.1 then
      cr_findnlTrace (overwrite st.buf.data r.2.1) (0 + start) (r.1 - 0).toNat
    else []
  else
    cr_findnlTrace st.buf.data (st.buf.idx + start) (st.buf.len - st.buf.idx).toNat

/-- cr_receiveinline: record the status line. -/
def cr_receiveinline (st : RState) (line : List Char) : Int × RState :=
  (0, { st with reply := { st.reply with line := some line } })

/-- cr_receiveint: parse the payload with atoi and record it. -/
def cr_receiveint (st : RState) (line : List Char) : Int × RState :=
  (0, { st with reply := { st.reply with integer := cr_atoi line } })

/-- cr_receiveerror: record the server message text unmodified and return
CREDIS_ERR_PROTOCOL (the source reuses the protocol-error sentinel for
server-side errors). -/
def cr_receiveerror (st : RState) (line : List Char) : Int × RState :=
  (CREDIS_ERR_PROTOCOL, { st with reply := { st.reply with line := some line } })

/-- cr_receivebulk: parse the declared length with atoi and read one more
line skipping that many payload bytes.  Faithful to the source, there is no
special case for a declared length of -1, and the result of cr_readln is
accepted whenever it is at least 0 (not compared against the declared
length); on a return of 0 caused by EOF the out-parameter line keeps the
value the caller passed in, which is what the reply then records. -/
def cr_receivebulk (st : RState) (line : List Char) : Int × RState :=
  let blen := cr_atoi line
  let r := cr_readln st blen
  if 0 ≤ r.1 then
    (0, { r.2.2 with reply := { r.2.2.reply with bulk := some (r.2.1.getD line) } })
  else
    (CREDIS_ERR_PROTOCOL, r.2.2)

/-- Write one entry of the multibulk scratch array
(bulks[i] = v in the source loop). -/
def writeBulk (st : RState) (i : Nat) (v : Option (List Char)) : RState :=
  { st with reply := { st.reply with multibulk := { st.reply.multibulk with
      bulks := fun j => if j = i then v else st.reply.multibulk.bulks j } } }

/-- Set the recorded multibulk length (reply.multibulk.len = i at the end
of cr_receivemultibulk). -/
def setMbLen (st : RState) (n : Int) : RState :=
  { st with reply := { st.reply with multibulk := { st.reply.multibulk with len := n } } }

/-- The loop of cr_receivemultibulk:
for ( ; bnum and cr_readln(rhnd, 0, and line) > 0; bnum--).  Each round
reads a header line (must begin with the bulk tag, else
CREDIS_ERR_PROTOCOL), parses the declared length; -1 records a NULL entry,
otherwise a second cr_readln skipping that many bytes must return exactly
the declared length, else CREDIS_ERR_PROTOCOL, and the payload view is
recorded.  Returns (body return code with 0 when the loop fell out of its
condition, the entries recorded in order, the final bnum, the final state).
The fuel argument is instantiated with bnum.toNat by the caller: the loop
decrements bnum every round, so for bnum at least 0 the fuel bound is exact
and never reached early; a negative bnum never reaches 0, and in every
terminating C execution the loop then ends on a failed read with
bnum nonzero, so the function returns CREDIS_ERR_PROTOCOL, which the
fuel-0 equation reproduces (the post-loop bnum check fails). -/
def cr_recvmbLoop : RState → Nat → Int → Nat → Int × List (Option (List Char)) × Int × RState
  | st, _, bnum, 0 => (0, [], bnum, st)
  | st, i, bnum, fuel + 1 =>
      if bnum = 0 then (0, [], bnum, st)
      else
        let r1 := cr_readln st 0
        if 0 < r1.1 then
          let l := r1.2.1.getD []
          if l.headD '\x00' ≠ '$' then (CREDIS_ERR_PROTOCOL, [], bnum, r1.2.2)
          else
            let blen := cr_atoi (l.drop 1)
            if blen = -1 then
              let rest := cr_recvmbLoop (writeBulk r1.2.2 i none) (i + 1) (bnum - 1) fuel
              (rest.1, none :: rest.2.1, rest.2.2.1, rest.2.2.2)
            else
              let r2 := cr_readln r1.2.2 blen
              if r2.1 = blen then
                let v := some (r2.2.1.getD (l.drop 1))
                let rest := cr_recvmbLoop (writeBulk r2.2.2 i v) (i + 1) (bnum - 1) fuel
                (rest.1, v :: rest.2.1, rest.2.2.1, rest.2.2.2)
              else (CREDIS_ERR_PROTOCOL, [], bnum, r2.2.2)
        else (0, [], bnum, r1.2.2)

/-- cr_receivemultibulk: parse the declared count, run the loop, fail with
CREDIS_ERR_PROTOCOL when the loop ended with bnum nonzero, otherwise record
the number of entries written.  The realloc growth step of the source is
the identity here: the scratch array is modelled as a total function (its
capacity is idealized), and the source never stores the new size back into
multibulk.size, so no field of the state changes. -/
def cr_receivemultibulk (st : RState) (line : List Char) : Int × RState :=
  let bnum := cr_atoi line
  let lr := cr_recvmbLoop st 0 bnum bnum.toNat
  if lr.1 ≠ 0 then (lr.1, lr.2.2.2)
  else if lr.2.2.1 ≠ 0 then (CREDIS_ERR_PROTOCOL, lr.2.2.2)
  else (0, setMbLen lr.2.2.2 (lr.2.1.length : Int))

/-- The buffer reset at the top of cr_receivereply
(buf.len = 0; buf.idx = 0). -/
def resetBuf (st : RState) : RState :=
  { st with buf := { st.buf with idx := 0, len := 0 } }

/-- cr_receivereply: reset the buffer framing state, read one line, treat
its first byte as the type tag; a tag that matches neither the expected
type nor the error tag is CREDIS_ERR_PROTOCOL; otherwise dispatch on the
tag (a matching tag outside the five known ones falls through the switch to
CREDIS_ERR_RECV, as does a failed or empty read). -/
def cr_receivereply (st : RState) (recvtype : Char) : Int × RState :=
  let r := cr_readln (resetBuf st) 0
  if 0 < r.1 then
    let l := r.2.1.getD []
    let tag := l.headD '\x00'
    let rest := l.drop 1
    if tag ≠ recvtype ∧ tag ≠ '-' then (CREDIS_ERR_PROTOCOL, r.2.2)
    else if tag = '-' then cr_receiveerror r.2.2 rest
    else if tag = '+' then cr_receiveinline r.2.2 rest
    else if tag = ':' then cr_receiveint r.2.2 rest
    else if tag = '$' then cr_receivebulk r.2.2 rest
    else if tag = '*' then cr_receivemultibulk r.2.2 rest
    else (CREDIS_ERR_RECV, r.2.2)
  else (CREDIS_ERR_RECV, r.2.2)

/-- One outcome of a select/send round inside cr_senddata: send accepted
n bytes, send returned an error, the select deadline elapsed, or select
itself failed. -/
inductive SendEvent where
  | sent : Nat → SendEvent
  | senderr : SendEvent
  | timeout : SendEvent
  | selecterr : SendEvent
deriving DecidableEq

/-- How the cr_senddata loop terminated: all bytes sent, deadline elapsed,
or a socket-level failure. -/
inductive SendExit where
  | done : SendExit
  | timedout : SendExit
  | failed : SendExit
deriving DecidableEq

/-- The while (sent < size) loop of cr_senddata: on a ready socket send
some bytes (a negative send return is -1 immediately), on a select timeout
break and return the count sent so far, on a select error return -1.
Exhausted events behave as the deadline elapsing on a never-ready
socket. -/
def cr_senddataLoop : Int → Int → List SendEvent → Int
  | _, sent, [] => sent
  | size, sent, e :: rest =>
      if sent < size then
        match e with
        | SendEvent.sent n => cr_senddataLoop size (sent + n) rest
        | SendEvent.senderr => -1
        | SendEvent.timeout => sent
        | SendEvent.selecterr => -1
      else sent

/-- cr_senddata on a buffer of the given size, driven by the given
select/send outcomes. -/
def cr_senddata (size : Int) (evs : List SendEvent) : Int :=
  cr_senddataLoop size 0 evs

/-- Classifies how the cr_senddata loop terminates on the given outcomes:
the same control flow as cr_senddataLoop, returning the exit kind instead
of the byte count. -/
def cr_sendExit : Int → Int → List SendEvent → SendExit
  | size, sent, [] => if sent < size then SendExit.timedout else SendExit.done
  | size, sent, e :: rest =>
      if sent < size then
        match e with
        | SendEvent.sent n => cr_sendExit size (sent + n) rest
        | SendEvent.senderr => SendExit.failed
        | SendEvent.timeout => SendExit.timedout
        | SendEvent.selecterr => SendExit.failed
      else SendExit.done

/-- Transport sanity for a send run: send never reports more bytes
accepted than it was asked to send (size - sent), which POSIX guarantees.
Only events the loop actually consumes are constrained. -/
def saneRun : Int → Int → List SendEvent → Bool
  | _, _, [] => true
  | size, sent, e :: rest =>
      if sent < size then
        match e with
        | SendEvent.sent n => decide ((n : Int) ≤ size - sent) && saneRun size (sent + n) rest
        | _ => true
      else true

/-- One iteration of the cr_receivemultibulk loop body, relating the state
before the iteration, the entry it records, and the state after: either the
header line declares length -1 and a NULL entry is recorded, or the header
declares another length, the payload read returns exactly that length, and
the payload view is recorded.  Each hypothesis is the corresponding branch
condition of cr_recvmbLoop. -/
inductive MbStep : RState → Option (List Char) → RState → Prop where
  | nullEntry : ∀ (st : RState),
      0 < (cr_readln st 0).1 →
      ((cr_readln st 0).2.1.getD []).headD '\x00' = '$' →
      cr_atoi (((cr_readln st 0).2.1.getD []).drop 1) = -1 →
      MbStep st none (cr_readln st 0).2.2
  | bulkEntry : ∀ (st : RState),
      0 < (cr_readln st 0).1 →
      ((cr_readln st 0).2.1.getD []).headD '\x00' = '$' →
      cr_atoi (((cr_readln st 0).2.1.getD []).drop 1) ≠ -1 →
      (cr_readln (cr_readln st 0).2.2 (cr_atoi (((cr_readln st 0).2.1.getD []).drop 1))).1 =
        cr_atoi (((cr_readln st 0).2.1.getD []).drop 1) →
      MbStep st
        (some ((cr_readln (cr_readln st 0).2.2
            (cr_atoi (((cr_readln st 0).2.1.getD []).drop 1))).2.1.getD
          (((cr_readln st 0).2.1.getD []).drop 1)))
        (cr_readln (cr_readln st 0).2.2 (cr_atoi (((cr_readln st 0).2.1.getD []).drop 1))).2.2

/-- A full run of the cr_receivemultibulk loop starting at scratch index i:
the recorded entries, in order, are produced by successive MbStep
iterations, each followed by the scratch-array write of its entry. -/
inductive MbSeq : RState → Nat → List (Option (List Char)) → RState → Prop where
  | nil : ∀ (st : RState) (i : Nat), MbSeq st i [] st
  | cons : ∀ (st : RState) (i : Nat) (v : Option (List Char)) (st1 : RState)
      (es : List (Option (List Char))) (st2 : RState),
      MbStep st v st1 →
      MbSeq (writeBulk st1 i v) (i + 1) es st2 →
      MbSeq st i (v :: es) st2

/-- An all-zero backing memory. -/
def zeroMem : Int → Char := fun _ => '\x00'

/-- Backing memory holding the characters of s at positions 0 .. s.length-1
and zero bytes elsewhere. -/
def memOf (s : String) : Int → Char :=
  fun i => if 0 ≤ i then s.toList.getD i.toNat '\x00' else '\x00'

/-- The reply slot as calloc leaves it in cr_new: integer 0, NULL line and
bulk pointers, empty multibulk with the initial scratch capacity of 64. -/
def initReply : CrReply :=
  { integer := 0, line := none, bulk := none,
    multibulk := { bulks := fun _ => none, size := 64, len := 0 } }

/-- An exhausted buffer over zeroed memory. -/
def emptyBuf : CrBuffer := { data := zeroMem, idx := 0, len := 0 }

/-- State whose next transport event delivers a complete multi-bulk body
with one three-byte bulk and one NULL bulk. -/
def stMbW : RState :=
  { buf := { data := memOf "$3\r\nfoo\r\n$-1\r\n", idx := 0, len := 14 },
    reply := initReply, events := [] }

/-- State delivering a bulk reply that declares length -1 (GET on a missing
key) and then nothing more before the deadline. -/
def stNullBulkW : RState :=
  { buf := emptyBuf, reply := initReply,
    events := [RecvEvent.chunk ("$-1\r\n".toList), RecvEvent.timeout] }

/-- State delivering a bulk reply that declares length 2 but carries the
five-byte payload hello. -/
def stShortBulkW : RState :=
  { buf := emptyBuf, reply := initReply,
    events := [RecvEvent.chunk ("$2\r\nhello\r\n".toList)] }

/-- Mid-parse state of a truncated bulk read: the six bytes of a bulk
reply declaring length 3 arrived, the header line was consumed (idx 4), and
only two payload bytes are buffered (len 6). -/
def stScanW : RState :=
  { buf := { data := memOf "$3\r\nab", idx := 4, len := 6 },
    reply := initReply, events := [] }

/-- State delivering a bulk-tagged line (used against an expected integer
tag). -/
def stBulkLineW : RState :=
  { buf := emptyBuf, reply := initReply,
    events := [RecvEvent.chunk ("$3\r\nfoo\r\n".toList)] }

/-- State whose transport times out with no data (socket open, idle
peer). -/
def stTimeoutW : RState :=
  { buf := emptyBuf, reply := initReply, events := [RecvEvent.timeout] }

/-- State whose peer closed the connection. -/
def stClosedW : RState :=
  { buf := emptyBuf, reply := initReply, events := [RecvEvent.closed] }

/-- State delivering an error-tagged reply line. -/
def stErrW : RState :=
  { buf := emptyBuf, reply := initReply,
    events := [RecvEvent.chunk ("-ERR oops\r\n".toList)] }

/-- State delivering a status-tagged reply line (used against an expected
bulk tag, a tag mismatch). -/
def stMismW : RState :=
  { buf := emptyBuf, reply := initReply,
    events := [RecvEvent.chunk ("+OK\r\n".toList)] }

/-- A second bulk-line state, used to instantiate the reply-preservation
theorem. -/
def stBulkLineW2 : RState :=
  { buf := emptyBuf, reply := initReply,
    events := [RecvEvent.chunk ("$3\r\nbar\r\n".toList)] }

/-- cr_scanln never touches the reply slot. -/
theorem cr_scanln_reply (st : RState) (s : Int) :
    ((cr_scanln st s).2.2).reply = st.reply := by
  unfold cr_scanln
  rcases h : cr_findnl st.buf.data (st.buf.idx + s) (st.buf.len - st.buf.idx).toNat with _ | nl <;>
    simp [h]

/-- cr_readln never touches the reply slot (it only moves the buffer cursor,
refills the buffer, and consumes transport events). -/
theorem cr_readln_reply (st : RState) (s : Int) :
    ((cr_readln st s).2.2).reply = st.reply := by
  unfold cr_readln
  by_cases h : st.buf.len = 0 ∨ st.buf.idx ≥ st.buf.len
  · simp only [h, if_true]
    by_cases h1 : 0 < (cr_receivedata st.events).1
    · simp only [h1, if_true]
      exact cr_scanln_reply _ _
    · by_cases h2 : (cr_receivedata st.events).1 = 0 <;> simp [h1, h2]
  · simp only [h, if_false]
    exact cr_scanln_reply _ _

/-- One multibulk loop iteration leaves the reply slot unchanged (only the
subsequent scratch-array write touches it). -/
theorem mbStep_reply {st : RState} {v : Option (List Char)} {st2 : RState}
    (h : MbStep st v st2) : st2.reply = st.reply := by
  cases h with
  | nullEntry _ _ _ => exact cr_readln_reply _ _
  | bulkEntry _ _ _ _ => exact (cr_readln_reply _ _).trans (cr_readln_reply _ _)

/-- A loop run starting at scratch index i never changes scratch entries
below i. -/
theorem mbSeq_bulks_lt {st : RState} {i : Nat} {es : List (Option (List Char))} {st2 : RState}
    (h : MbSeq st i es st2) :
    ∀ k, k < i → st2.reply.multibulk.bulks k = st.reply.multibulk.bulks k := by
  induction h with
  | nil s j => intro k _; rfl
  | cons s j v s1 es s2 hstep hrest ih =>
      intro k hk
      have h1 : s2.reply.multibulk.bulks k = (writeBulk s1 j v).reply.multibulk.bulks k :=
        ih k (Nat.lt_succ_of_lt hk)
      rw [h1]
      have h2 : (writeBulk s1 j v).reply.multibulk.bulks k = s1.reply.multibulk.bulks k := by
        simp [writeBulk, Nat.ne_of_lt hk]
      rw [h2, mbStep_reply hstep]

/-- After a loop run starting at scratch index i that records the entry
list es, scratch slot i + j holds entry j of es. -/
theorem mbSeq_bulks {st : RState} {i : Nat} {es : List (Option (List Char))} {st2 : RState}
    (h : MbSeq st i es st2) :
    ∀ j, j < es.length → st2.reply.multibulk.bulks (i + j) = es.getD j none := by
  induction h with
  | nil s j => intro k hk; simp at hk
  | cons s i0 v s1 es s2 hstep hrest ih =>
      intro j hj
      cases j with
      | zero =>
          have h1 : s2.reply.multibulk.bulks i0 = (writeBulk s1 i0 v).reply.multibulk.bulks i0 :=
            mbSeq_bulks_lt hrest i0 (Nat.lt_succ_self i0)
          rw [Nat.add_zero, h1]
          simp [writeBulk]
      | succ j =>
          have h1 := ih j (by simpa using hj)
          have h2 : i0 + (j + 1) = (i0 + 1) + j := by omega
          rw [h2, h1]
          rfl

/-- Every position the cr_findnl scan inspects lies in the window
[p, p + counter) determined by the scan position p and the loop counter. -/
theorem cr_findnlTrace_range (data : Int → Char) :
    ∀ (fuel : Nat) (p q : Int), q ∈ cr_findnlTrace data p fuel → p ≤ q ∧ q < p + fuel
  | 0, p, q, hq => by simp [cr_findnlTrace] at hq
  | 1, p, q, hq => by simp [cr_findnlTrace] at hq
  | (n + 2), p, q, hq => by
      rw [cr_findnlTrace] at hq
      split_ifs at hq with hcr hlf
      · simp only [List.mem_cons, List.not_mem_nil, or_false] at hq
        rcases hq with h | h <;> subst h <;> push_cast <;> omega
      · simp only [List.mem_cons] at hq
        rcases hq with h | h | h
        · subst h; push_cast; omega
        · subst h; push_cast; omega
        · have := cr_findnlTrace_range data (n + 1) (p + 1) q h
          push_cast at this ⊢
          omega
      · simp only [List.mem_cons] at hq
        rcases hq with h | h
        · subst h; push_cast; omega
        · have := cr_findnlTrace_range data (n + 1) (p + 1) q h
          push_cast at this ⊢
          omega

/-- Soundness of the cr_receivemultibulk loop: it only ever returns 0 or
CREDIS_ERR_PROTOCOL, and when it returns 0 having counted bnum down to 0,
the entries it recorded form an MbSeq run from the initial state to the
final state whose length is exactly the initial bnum. -/
theorem mbLoop_sound : ∀ (fuel : Nat) (st : RState) (i : Nat) (bnum : Int),
    ((cr_recvmbLoop st i bnum fuel).1 = 0 ∨
      (cr_recvmbLoop st i bnum fuel).1 = CREDIS_ERR_PROTOCOL) ∧
    ((cr_recvmbLoop st i bnum fuel).1 = 0 → (cr_recvmbLoop st i bnum fuel).2.2.1 = 0 →
      MbSeq st i (cr_recvmbLoop st i bnum fuel).2.1 (cr_recvmbLoop st i bnum fuel).2.2.2 ∧
      (((cr_recvmbLoop st i bnum fuel).2.1.length : Int) = bnum)) := by
  intro fuel
  induction fuel with
  | zero =>
      intro st i bnum
      refine ⟨Or.inl rfl, ?_⟩
      intro _ hb
      simp only [cr_recvmbLoop] at hb ⊢
      exact ⟨MbSeq.nil st i, by simpa using hb.symm⟩
  | succ fuel ih =>
      intro st i bnum
      by_cases hb : bnum = 0
      · subst hb
        refine ⟨Or.inl (by simp [cr_recvmbLoop]), ?_⟩
        intro _ _
        simp only [cr_recvmbLoop, if_pos rfl]
        exact ⟨MbSeq.nil st i, by simp⟩
      · by_cases h1 : 0 < (cr_readln st 0).1
        · by_cases h2 : ((cr_readln st 0).2.1.getD []).headD '\x00' ≠ '$'
          · have hres : cr_recvmbLoop st i bnum (fuel + 1) =
                (CREDIS_ERR_PROTOCOL, [], bnum, (cr_readln st 0).2.2) := by
              simp only [cr_recvmbLoop]
              rw [if_neg hb, if_pos h1, if_pos h2]
            rw [hres]
            refine ⟨Or.inr rfl, ?_⟩
            intro h0
            exact absurd h0 (by simp [CREDIS_ERR_PROTOCOL])
          · have htag : ((cr_readln st 0).2.1.getD []).headD '\x00' = '$' := not_not.mp h2
            by_cases h3 : cr_atoi (((cr_readln st 0).2.1.getD []).drop 1) = -1
            · have hres : cr_recvmbLoop st i bnum (fuel + 1) =
                  ((cr_recvmbLoop (writeBulk (cr_readln st 0).2.2 i none)
                      (i + 1) (bnum - 1) fuel).1,
                   none :: (cr_recvmbLoop (writeBulk (cr_readln st 0).2.2 i none)
                      (i + 1) (bnum - 1) fuel).2.1,
                   (cr_recvmbLoop (writeBulk (cr_readln st 0).2.2 i none)
                      (i + 1) (bnum - 1) fuel).2.2.1,
                   (cr_recvmbLoop (writeBulk (cr_readln st 0).2.2 i none)
                      (i + 1) (bnum - 1) fuel).2.2.2) := by
                simp only [cr_recvmbLoop]
                rw [if_neg hb, if_pos h1, if_neg h2, if_pos h3]
              obtain ⟨ihl, ihr⟩ := ih (writeBulk (cr_readln st 0).2.2 i none) (i + 1) (bnum - 1)
              rw [hres]
              refine ⟨ihl, ?_⟩
              intro h0 hbf
              obtain ⟨hseq, hlen⟩ := ihr h0 hbf
              refine ⟨MbSeq.cons st i none (cr_readln st 0).2.2 _ _
                (MbStep.nullEntry st h1 htag h3) hseq, ?_⟩
              simp only [List.length_cons]
              push_cast
              omega
            · by_cases h4 : (cr_readln (cr_readln st 0).2.2
                  (cr_atoi (((cr_readln st 0).2.1.getD []).drop 1))).1 =
                  cr_atoi (((cr_readln st 0).2.1.getD []).drop 1)
              · have hres : cr_recvmbLoop st i bnum (fuel + 1) =
                    ((cr_recvmbLoop (writeBulk (cr_readln (cr_readln st 0).2.2
                          (cr_atoi (((cr_readln st 0).2.1.getD []).drop 1))).2.2 i
                          (some ((cr_readln (cr_readln st 0).2.2
                              (cr_atoi (((cr_readln st 0).2.1.getD []).drop 1))).2.1.getD
                            (((cr_readln st 0).2.1.getD []).drop 1))))
                        (i + 1) (bnum - 1) fuel).1,
                     some ((cr_readln (cr_readln st 0).2.2
                          (cr_atoi (((cr_readln st 0).2.1.getD []).drop 1))).2.1.getD
                        (((cr_readln st 0).2.1.getD []).drop 1)) ::
                       (cr_recvmbLoop (writeBulk (cr_readln (cr_readln st 0).2.2
                            (cr_atoi (((cr_readln st 0).2.1.getD []).drop 1))).2.2 i
                            (some ((cr_readln (cr_readln st 0).2.2
                                (cr_atoi (((cr_readln st 0).2.1.getD []).drop 1))).2.1.getD
                              (((cr_readln st 0).2.1.getD []).drop 1))))
                          (i + 1) (bnum - 1) fuel).2.1,
                     (cr_recvmbLoop (writeBulk (cr_readln (cr_readln st 0).2.2
                          (cr_atoi (((cr_readln st 0).2.1.getD []).drop 1))).2.2 i
                          (some ((cr_readln (cr_readln st 0).2.2
                              (cr_atoi (((cr_readln st 0).2.1.getD []).drop 1))).2.1.getD
                            (((cr_readln st 0).2.1.getD []).drop 1))))
                        (i + 1) (bnum - 1) fuel).2.2.1,
                     (cr_recvmbLoop (writeBulk (cr_readln (cr_readln st 0).2.2
                          (cr_atoi (((cr_readln st 0).2.1.getD []).drop 1))).2.2 i
                          (some ((cr_readln (cr_readln st 0).2.2
                              (cr_atoi (((cr_readln st 0).2.1.getD []).drop 1))).2.1.getD
                            (((cr_readln st 0).2.1.getD []).drop 1))))
                        (i + 1) (bnum - 1) fuel).2.2.2) := by
                  simp only [cr_recvmbLoop]
                  rw [if_neg hb, if_pos h1, if_neg h2, if_neg h3, if_pos h4]
                obtain ⟨ihl, ihr⟩ := ih (writeBulk (cr_readln (cr_readln st 0).2.2
                    (cr_atoi (((cr_readln st 0).2.1.getD []).drop 1))).2.2 i
                    (some ((cr_readln (cr_readln st 0).2.2
                        (cr_atoi (((cr_readln st 0).2.1.getD []).drop 1))).2.1.getD
                      (((cr_readln st 0).2.1.getD []).drop 1))))
                  (i + 1) (bnum - 1)
                rw [hres]
                refine ⟨ihl, ?_⟩
                intro h0 hbf
                obtain ⟨hseq, hlen⟩ := ihr h0 hbf
                refine ⟨MbSeq.cons st i _ _ _ _
                  (MbStep.bulkEntry st h1 htag h3 h4) hseq, ?_⟩
                simp only [List.length_cons]
                push_cast
                omega
              · have hres : cr_recvmbLoop st i bnum (fuel + 1) =
                    (CREDIS_ERR_PROTOCOL, [], bnum,
                     (cr_readln (cr_readln st 0).2.2
                        (cr_atoi (((cr_readln st 0).2.1.getD []).drop 1))).2.2) := by
                  simp only [cr_recvmbLoop]
                  rw [if_neg hb, if_pos h1, if_neg h2, if_neg h3, if_neg h4]
                rw [hres]
                refine ⟨Or.inr rfl, ?_⟩
                intro h0
                exact absurd h0 (by simp [CREDIS_ERR_PROTOCOL])
        · have hres : cr_recvmbLoop st i bnum (fuel + 1) =
              (0, [], bnum, (cr_readln st 0).2.2) := by
            simp only [cr_recvmbLoop]
            rw [if_neg hb, if_neg h1]
          rw [hres]
          refine ⟨Or.inl rfl, ?_⟩
          intro _ hbf
          exact absurd hbf hb


/-- Case analysis of the cr_senddata loop under the transport sanity
condition: a loop that terminates because all bytes were sent returns
exactly size, one that terminates on a select timeout returns the
nonnegative count sent so far (strictly below size), and one that
terminates on a send or select error returns -1. -/
theorem cr_senddata_run_cases (size : Int) :
    ∀ (evs : List SendEvent) (sent : Int), 0 ≤ sent → sent ≤ size →
      saneRun size sent evs = true →
      (cr_sendExit size sent evs = SendExit.done → cr_senddataLoop size sent evs = size) ∧
      (cr_sendExit size sent evs = SendExit.timedout →
        0 ≤ cr_senddataLoop size sent evs ∧ cr_senddataLoop size sent evs < size) ∧
      (cr_sendExit size sent evs = SendExit.failed → cr_senddataLoop size sent evs = -1) := by
  intro evs
  induction evs with
  | nil =>
      intro sent h0 hle _
      by_cases hlt : sent < size
      · refine ⟨?_, ?_, ?_⟩
        · intro hd; simp [cr_sendExit, hlt] at hd
        · intro _; exact ⟨h0, by simpa [cr_senddataLoop] using hlt⟩
        · intro hf; simp [cr_sendExit, hlt] at hf
      · refine ⟨?_, ?_, ?_⟩
        · intro _
          have : cr_senddataLoop size sent [] = sent := rfl
          omega
        · intro ht; simp [cr_sendExit, hlt] at ht
        · intro hf; simp [cr_sendExit, hlt] at hf
  | cons e rest ih =>
      intro sent h0 hle hsane
      by_cases hlt : sent < size
      · cases e with
        | sent n =>
            have hs : ((n : Int) ≤ size - sent) ∧ saneRun size (sent + (n : Int)) rest = true := by
              have := hsane
              simp only [saneRun, if_pos hlt, Bool.and_eq_true, decide_eq_true_eq] at this
              exact this
            have hih := ih (sent + (n : Int)) (by omega) (by omega) hs.2
            simpa [cr_sendExit, cr_senddataLoop, hlt] using hih
        | senderr =>
            refine ⟨?_, ?_, ?_⟩
            · intro hd; simp [cr_sendExit, hlt] at hd
            · intro ht; simp [cr_sendExit, hlt] at ht
            · intro _; simp [cr_senddataLoop, hlt]
        | timeout =>
            refine ⟨?_, ?_, ?_⟩
            · intro hd; simp [cr_sendExit, hlt] at hd
            · intro _
              constructor
              · simp [cr_senddataLoop, hlt]
                omega
              · simp [cr_senddataLoop, hlt]
            · intro hf; simp [cr_sendExit, hlt] at hf
        | selecterr =>
            refine ⟨?_, ?_, ?_⟩
            · intro hd; simp [cr_sendExit, hlt] at hd
            · intro ht; simp [cr_sendExit, hlt] at ht
            · intro _; simp [cr_senddataLoop, hlt]
      · refine ⟨?_, ?_, ?_⟩
        · intro _
          have : cr_senddataLoop size sent (e :: rest) = sent := by
            simp [cr_senddataLoop, hlt]
          omega
        · intro ht; simp [cr_sendExit, hlt] at ht
        · intro hf; simp [cr_sendExit, hlt] at hf

/-- Claim C1: for every multi-bulk reply that assembles successfully with
declared count K and K well-formed bulk entries, cr_receivemultibulk
records a result sequence of length exactly K, with the entries in wire
order (the MbSeq run lists them in the order the loop read them off the
wire) and each declared-length -1 entry recorded as a null; and every
failure (unreadable or malformed entry) returns CREDIS_ERR_PROTOCOL, never
a successful partial sequence. -/
theorem cr_receivemultibulk_count_invariant (st : RState) (line : List Char) :
    ((cr_receivemultibulk st line).1 = 0 ∨
      (cr_receivemultibulk st line).1 = CREDIS_ERR_PROTOCOL) ∧
    ((cr_receivemultibulk st line).1 = 0 →
      ∃ es st1, MbSeq st 0 es st1 ∧
        (es.length : Int) = cr_atoi line ∧
        (cr_receivemultibulk st line).2 = setMbLen st1 (es.length : Int) ∧
        (cr_receivemultibulk st line).2.reply.multibulk.len = (es.length : Int) ∧
        ∀ j, j < es.length →
          (cr_receivemultibulk st line).2.reply.multibulk.bulks j = es.getD j none) := by
  obtain ⟨hl, hr⟩ := mbLoop_sound (cr_atoi line).toNat st 0 (cr_atoi line)
  by_cases hz : (cr_recvmbLoop st 0 (cr_atoi line) (cr_atoi line).toNat).1 = 0
  · by_cases hbf : (cr_recvmbLoop st 0 (cr_atoi line) (cr_atoi line).toNat).2.2.1 = 0
    · obtain ⟨hseq, hlen⟩ := hr hz hbf
      have hres : cr_receivemultibulk st line =
          (0, setMbLen (cr_recvmbLoop st 0 (cr_atoi line) (cr_atoi line).toNat).2.2.2
                ((cr_recvmbLoop st 0 (cr_atoi line) (cr_atoi line).toNat).2.1.length : Int)) := by
        simp [cr_receivemultibulk, hz, hbf]
      rw [hres]
      refine ⟨Or.inl rfl, fun _ => ⟨_, _, hseq, hlen, rfl, ?_, ?_⟩⟩
      · simp [setMbLen]
      · intro j hj
        have hbk := mbSeq_bulks hseq j hj
        simpa [setMbLen] using hbk
    · have hres : cr_receivemultibulk st line =
          (CREDIS_ERR_PROTOCOL,
           (cr_recvmbLoop st 0 (cr_atoi line) (cr_atoi line).toNat).2.2.2) := by
        simp [cr_receivemultibulk, hz, hbf]
      rw [hres]
      exact ⟨Or.inr rfl, fun h0 => absurd h0 (by simp [CREDIS_ERR_PROTOCOL])⟩
  · have hp : (cr_recvmbLoop st 0 (cr_atoi line) (cr_atoi line).toNat).1 =
        CREDIS_ERR_PROTOCOL := by
      rcases hl with h | h
      · exact absurd h hz
      · exact h
    have hres : cr_receivemultibulk st line =
        ((cr_recvmbLoop st 0 (cr_atoi line) (cr_atoi line).toNat).1,
         (cr_recvmbLoop st 0 (cr_atoi line) (cr_atoi line).toNat).2.2.2) := by
      simp [cr_receivemultibulk, hz]
    rw [hres]
    exact ⟨Or.inr hp, fun h0 => absurd h0 hz⟩

/-- Witness for claim C1: a wire body of one three-byte bulk followed by
one null bulk, declared count 2, assembles to a recorded sequence of length
exactly 2 in wire order. -/
theorem cr_receivemultibulk_count_invariant_witness :
    ∃ es st1, MbSeq stMbW 0 es st1 ∧
      (es.length : Int) = cr_atoi ("2".toList) ∧
      (cr_receivemultibulk stMbW ("2".toList)).2 = setMbLen st1 (es.length : Int) ∧
      (cr_receivemultibulk stMbW ("2".toList)).2.reply.multibulk.len = (es.length : Int) ∧
      ∀ j, j < es.length →
        (cr_receivemultibulk stMbW ("2".toList)).2.reply.multibulk.bulks j = es.getD j none :=
  (cr_receivemultibulk_count_invariant stMbW ("2".toList)).2 (by decide)

/-- Claim C2 (code bug): the cr_readln scan is not confined to the
unconsumed region below len: on the mid-parse state stScanW (idx 4, len 6)
with skip offset 3 the scan inspects byte position 7, which is at or beyond
len.  The source passes counter len - idx to cr_findnl while starting the
scan at idx + start, so the window overshoots len by start bytes; the
source comment at the call site (TODO check that start does not go out of
limit) concedes the missing bound check. -/
theorem cr_readln_scan_reads_beyond_len :
    cr_readlnScanTrace stScanW 3 = [7] ∧
    stScanW.buf.len = 6 ∧
    ¬ (7 : Int) < stScanW.buf.len := by decide

/-- Claim C3 (code bug): a standalone bulk reply with declared length -1
(null bulk, e.g. GET on a missing key) is not special-cased by
cr_receivebulk: the code calls cr_readln with start = -1, which on the
exhausted buffer attempts another transport receive; when the peer sends
nothing more before the deadline the call fails and cr_receivereply returns
CREDIS_ERR_PROTOCOL with no null bulk recorded, instead of producing
Bulk(null) as the claim states (the -1 special case exists only in the
multi-bulk path). -/
theorem cr_receivebulk_null_not_handled :
    (cr_receivereply stNullBulkW '$').1 = CREDIS_ERR_PROTOCOL ∧
    (cr_receivereply stNullBulkW '$').2.reply.bulk = none := by decide

/-- Claim C4 (code bug): cr_receivebulk accepts any cr_readln result that
is at least 0 instead of comparing it with the declared length: a bulk
reply declaring length 2 whose payload line is the five bytes of hello is
accepted as a success (return 0) and recorded, where the claim (and the
sibling check in the multi-bulk path) requires CREDIS_ERR_PROTOCOL. -/
theorem cr_receivebulk_wrong_length_accepted :
    (cr_receivereply stShortBulkW '$').1 = 0 ∧
    (cr_receivereply stShortBulkW '$').2.reply.bulk = some ("hello".toList) ∧
    ("hello".toList.length : Int) ≠ cr_atoi ("2".toList) := by decide

/-- Claim C5: whenever the received line's first byte is neither the
expected reply-type tag nor the error tag, cr_receivereply returns
CREDIS_ERR_PROTOCOL. -/
theorem cr_receivereply_tag_mismatch (st : RState) (recvtype : Char)
    (h1 : 0 < (cr_readln (resetBuf st) 0).1)
    (h2 : ((cr_readln (resetBuf st) 0).2.1.getD []).headD '\x00' ≠ recvtype)
    (h3 : ((cr_readln (resetBuf st) 0).2.1.getD []).headD '\x00' ≠ '-') :
    (cr_receivereply st recvtype).1 = CREDIS_ERR_PROTOCOL := by
  rw [List.headD_eq_head?] at h2 h3
  simp [cr_receivereply, h1, h2, h3]

/-- Witness for claim C5: expecting an integer reply but receiving a
bulk-tagged line yields CREDIS_ERR_PROTOCOL, not a misparse. -/
theorem cr_receivereply_tag_mismatch_witness :
    0 < (cr_readln (resetBuf stBulkLineW) 0).1 ∧
    ((cr_readln (resetBuf stBulkLineW) 0).2.1.getD []).headD '\x00' ≠ ':' ∧
    ((cr_readln (resetBuf stBulkLineW) 0).2.1.getD []).headD '\x00' ≠ '-' ∧
    (cr_receivereply stBulkLineW ':').1 = CREDIS_ERR_PROTOCOL :=
  ⟨by decide, by decide, by decide,
   cr_receivereply_tag_mismatch stBulkLineW ':' (by decide) (by decide) (by decide)⟩

/-- Claim C6 (counterexample to the claim as stated): within one receive
cycle the transport layer reports a timeout as -2 and a peer close as 0,
but cr_receivereply returns the single value CREDIS_ERR_RECV in both
cases, so at the interface the reply reader exposes to the command layer
the two outcomes are conflated into the same result value. -/
theorem cr_receivereply_conflates_timeout_and_eof :
    (cr_receivedata stTimeoutW.events).1 = -2 ∧
    (cr_receivedata stClosedW.events).1 = 0 ∧
    (cr_receivereply stTimeoutW '+').1 = CREDIS_ERR_RECV ∧
    (cr_receivereply stClosedW '+').1 = CREDIS_ERR_RECV ∧
    (cr_receivereply stTimeoutW '+').1 = (cr_receivereply stClosedW '+').1 := by decide

/-- Claim C6 amended: the timeout and end-of-stream outcomes are kept
distinct below the dispatcher: cr_receivedata returns -2 for a deadline
elapsing with no data and 0 for a peer close, and cr_readln maps them to
the distinct values -1 and 0; only cr_receivereply collapses both into
CREDIS_ERR_RECV. -/
theorem cr_readln_timeout_eof_distinct (st : RState) (evs : List RecvEvent) (s : Int)
    (h : st.buf.len = 0 ∨ st.buf.idx ≥ st.buf.len) :
    (cr_readln { st with events := RecvEvent.timeout :: evs } s).1 = -1 ∧
    (cr_readln { st with events := RecvEvent.closed :: evs } s).1 = 0 ∧
    (cr_receivedata (RecvEvent.timeout :: evs)).1 = -2 ∧
    (cr_receivedata (RecvEvent.closed :: evs)).1 = 0 := by
  refine ⟨?_, ?_, rfl, rfl⟩
  · simp [cr_readln, cr_receivedata, h]
  · simp [cr_readln, cr_receivedata, h]

/-- Witness for the amended claim C6 at an exhausted buffer. -/
theorem cr_readln_timeout_eof_distinct_witness :
    (stClosedW.buf.len = 0 ∨ stClosedW.buf.idx ≥ stClosedW.buf.len) ∧
    ((cr_readln { stClosedW with events := RecvEvent.timeout :: [] } 0).1 = -1 ∧
     (cr_readln { stClosedW with events := RecvEvent.closed :: [] } 0).1 = 0 ∧
     (cr_receivedata (RecvEvent.timeout :: [])).1 = -2 ∧
     (cr_receivedata (RecvEvent.closed :: [])).1 = 0) :=
  ⟨Or.inl rfl, cr_readln_timeout_eof_distinct stClosedW [] 0 (Or.inl rfl)⟩

/-- Claim C7 (counterexample to the claim as stated): a well-formed
error-tagged reply makes cr_receivereply return CREDIS_ERR_PROTOCOL, the
very value returned for a malformed reply shape (here a tag mismatch), so
the server-error outcome is not distinct from ProtocolError. -/
theorem cr_receiveerror_same_code_as_protocol :
    (cr_receivereply stErrW '+').1 = CREDIS_ERR_PROTOCOL ∧
    (cr_receivereply stMismW '$').1 = CREDIS_ERR_PROTOCOL ∧
    (cr_receivereply stErrW '+').1 = (cr_receivereply stMismW '$').1 := by decide

/-- Claim C7 amended: for every error-tagged reply line, regardless of the
expected reply type, the dispatcher stores the server message text
unmodified (the line after the tag byte) in the reply line slot, but
reports it with the same CREDIS_ERR_PROTOCOL sentinel used for protocol
violations rather than a distinct RemoteError outcome. -/
theorem cr_receiveerror_text_preserved (st : RState) (recvtype : Char)
    (h1 : 0 < (cr_readln (resetBuf st) 0).1)
    (h2 : ((cr_readln (resetBuf st) 0).2.1.getD []).headD '\x00' = '-') :
    (cr_receivereply st recvtype).1 = CREDIS_ERR_PROTOCOL ∧
    (cr_receivereply st recvtype).2.reply.line =
      some (((cr_readln (resetBuf st) 0).2.1.getD []).drop 1) := by
  rw [List.headD_eq_head?] at h2
  constructor <;> simp [cr_receivereply, h1, h2, cr_receiveerror]

/-- Witness for the amended claim C7. -/
theorem cr_receiveerror_text_preserved_witness :
    0 < (cr_readln (resetBuf stErrW) 0).1 ∧
    ((cr_readln (resetBuf stErrW) 0).2.1.getD []).headD '\x00' = '-' ∧
    ((cr_receivereply stErrW '+').1 = CREDIS_ERR_PROTOCOL ∧
     (cr_receivereply stErrW '+').2.reply.line =
       some (((cr_readln (resetBuf stErrW) 0).2.1.getD []).drop 1)) :=
  ⟨by decide, by decide, cr_receiveerror_text_preserved stErrW '+' (by decide) (by decide)⟩

/-- Claim C8: under the POSIX guarantee that send never reports more bytes
than requested, cr_senddata returns exactly size when and only when the
loop completed, a count that is nonnegative and strictly below size when
and only when the deadline elapsed first, and the -1 sentinel when and only
when a socket-level error occurred. -/
theorem cr_senddata_return_spec (size : Int) (evs : List SendEvent)
    (hsize : 0 ≤ size) (hsane : saneRun size 0 evs = true) :
    (cr_senddata size evs = size ↔ cr_sendExit size 0 evs = SendExit.done) ∧
    ((0 ≤ cr_senddata size evs ∧ cr_senddata size evs < size) ↔
      cr_sendExit size 0 evs = SendExit.timedout) ∧
    (cr_senddata size evs = -1 ↔ cr_sendExit size 0 evs = SendExit.failed) := by
  obtain ⟨hd, ht, hf⟩ := cr_senddata_run_cases size evs 0 le_rfl hsize hsane
  simp only [cr_senddata] at *
  cases hx : cr_sendExit size 0 evs with
  | done =>
      have hv := hd hx
      refine ⟨⟨fun _ => rfl, fun _ => hv⟩, ⟨fun h => ?_, fun h => ?_⟩, ⟨fun h => ?_, fun h => ?_⟩⟩
      · rw [hv] at h; omega
      · simp at h
      · rw [hv] at h; omega
      · simp at h
  | timedout =>
      obtain ⟨hv0, hv1⟩ := ht hx
      refine ⟨⟨fun h => absurd h (by omega), fun h => by simp at h⟩,
              ⟨fun _ => rfl, fun _ => ⟨hv0, hv1⟩⟩,
              ⟨fun h => absurd h (by omega), fun h => by simp at h⟩⟩
  | failed =>
      have hv := hf hx
      refine ⟨⟨fun h => absurd h (by omega), fun h => by simp at h⟩,
              ⟨fun h => absurd h.1 (by omega), fun h => by simp at h⟩,
              ⟨fun _ => rfl, fun _ => hv⟩⟩

/-- Witness for claim C8: size 4, one send of 2 bytes, then the deadline
elapses: the run is sane, returns 2 (nonnegative and below size), and is
classified as a timeout exit. -/
theorem cr_senddata_return_spec_witness :
    (0 : Int) ≤ 4 ∧ saneRun 4 0 [SendEvent.sent 2, SendEvent.timeout] = true ∧
    ((cr_senddata 4 [SendEvent.sent 2, SendEvent.timeout] = 4 ↔
       cr_sendExit 4 0 [SendEvent.sent 2, SendEvent.timeout] = SendExit.done) ∧
     ((0 ≤ cr_senddata 4 [SendEvent.sent 2, SendEvent.timeout] ∧
       cr_senddata 4 [SendEvent.sent 2, SendEvent.timeout] < 4) ↔
       cr_sendExit 4 0 [SendEvent.sent 2, SendEvent.timeout] = SendExit.timedout) ∧
     (cr_senddata 4 [SendEvent.sent 2, SendEvent.timeout] = -1 ↔
       cr_sendExit 4 0 [SendEvent.sent 2, SendEvent.timeout] = SendExit.failed)) :=
  ⟨by decide, by decide, cr_senddata_return_spec 4 _ (by decide) (by decide)⟩

/-- Claim C9: when cr_receivereply fails with the tag-mismatch
CREDIS_ERR_PROTOCOL, the whole reply slot (integer, line, bulk and
multibulk fields) is unchanged: the error return happens before any
type-specific handler writes to the reply. -/
theorem cr_receivereply_mismatch_preserves_reply (st : RState) (recvtype : Char)
    (h1 : 0 < (cr_readln (resetBuf st) 0).1)
    (h2 : ((cr_readln (resetBuf st) 0).2.1.getD []).headD '\x00' ≠ recvtype)
    (h3 : ((cr_readln (resetBuf st) 0).2.1.getD []).headD '\x00' ≠ '-') :
    (cr_receivereply st recvtype).2.reply = st.reply := by
  have hres : cr_receivereply st recvtype =
      (CREDIS_ERR_PROTOCOL, (cr_readln (resetBuf st) 0).2.2) := by
    rw [List.headD_eq_head?] at h2 h3
    simp [cr_receivereply, h1, h2, h3]
  rw [hres]
  exact cr_readln_reply (resetBuf st) 0

/-- Witness for claim C9. -/
theorem cr_receivereply_mismatch_preserves_reply_witness :
    0 < (cr_readln (resetBuf stBulkLineW2) 0).1 ∧
    ((cr_readln (resetBuf stBulkLineW2) 0).2.1.getD []).headD '\x00' ≠ ':' ∧
    ((cr_readln (resetBuf stBulkLineW2) 0).2.1.getD []).headD '\x00' ≠ '-' ∧
    (cr_receivereply stBulkLineW2 ':').2.reply = stBulkLineW2.reply :=
  ⟨by decide, by decide, by decide,
   cr_receivereply_mismatch_preserves_reply stBulkLineW2 ':' (by decide) (by decide) (by decide)⟩

/-- Claim C10: a multi-bulk reply with declared count 0 succeeds
immediately: the loop condition is false at once, so no line is read, no
transport event is consumed, the buffer is untouched, and the recorded
length is 0. -/
theorem cr_receivemultibulk_zero_count (st : RState) (line : List Char)
    (h : cr_atoi line = 0) :
    (cr_receivemultibulk st line).1 = 0 ∧
    (cr_receivemultibulk st line).2.buf = st.buf ∧
    (cr_receivemultibulk st line).2.events = st.events ∧
    (cr_receivemultibulk st line).2.reply.multibulk.len = 0 := by
  simp [cr_receivemultibulk, h, cr_recvmbLoop, setMbLen]

/-- Witness for claim C10. -/
theorem cr_receivemultibulk_zero_count_witness :
    cr_atoi ("0".toList) = 0 ∧
    ((cr_receivemultibulk stMbW ("0".toList)).1 = 0 ∧
     (cr_receivemultibulk stMbW ("0".toList)).2.buf = stMbW.buf ∧
     (cr_receivemultibulk stMbW ("0".toList)).2.events = stMbW.events ∧
     (cr_receivemultibulk stMbW ("0".toList)).2.reply.multibulk.len = 0) :=
  ⟨by decide, cr_receivemultibulk_zero_count stMbW ("0".toList) (by decide)⟩

end Credis
